import Mathlib

/-!
# Verification of the chess web application's session/controller logic

This file gives a shallow embedding of the move controller (`makeAMove`,
`onDrop`, `onSquareClick` attempt path) of the two `ChessGame` component
revisions, the game page's persistence handlers (`handleMove`,
`handleResign`, `handleAcceptDraw`), the realtime move-insert handler and
the player-color resolution of `fetchGame`, together with a model of the
external chess.js rules engine they delegate to.

Conventions of the embedding:
* A chess position ("FEN string") is represented structurally as a
  `Position` record holding the six FEN fields; `writeFen` serializes it
  to the actual FEN text.  `new Chess(fen)` / `game.load(fen)` are the
  identity on this representation.
* The chess.js engine is modelled from the spec's description of it
  ("full chess legality, check/checkmate/draw detection, FEN
  serialization"): `engineMove` returns `none` when it rejects a move
  (the spec describes rejection as observable to the caller's
  king-override branch) and otherwise returns the committed move
  descriptor (with `before`/`after` FEN strings, as chess.js `Move`
  carries) together with the successor position.
* Stateful component code is modelled by explicit state passing: the
  controller takes the held position and returns the result together
  with the new held position; the page handlers return the list of
  database operations they issue.
-/

/-- The two piece colors, chess.js `'w'`/`'b'`. -/
inductive Color
  | white
  | black
deriving DecidableEq, Repr

/-- Toggling the side to move, as in `fenParts[1] === 'w' ? 'b' : 'w'`. -/
def Color.other : Color → Color
  | Color.white => Color.black
  | Color.black => Color.white

/-- The six chess piece kinds, chess.js `p n b r q k`. -/
inductive PieceKind
  | pawn
  | knight
  | bishop
  | rook
  | queen
  | king
deriving DecidableEq, Repr

/-- A colored piece, as returned by chess.js `get`. -/
structure Piece where
  color : Color
  kind : PieceKind
deriving DecidableEq, Repr

/-- A board square: file 0–7 = a–h, rank 0–7 = 1–8. -/
structure Sq where
  file : Fin 8
  rank : Fin 8
deriving DecidableEq, Repr

/-- The board is a total assignment of an optional piece to each square. -/
def Board := Sq → Option Piece

/-- Place `p` (or clear, for `none`) on square `s`. -/
def Board.setSq (b : Board) (s : Sq) (p : Option Piece) : Board :=
  fun q => if q = s then p else b q

/-- FEN castling-rights field, one flag per side and color (KQkq). -/
structure CastleRights where
  wk : Bool
  wq : Bool
  bk : Bool
  bq : Bool
deriving DecidableEq, Repr

/-- A chess position: the structural content of a FEN string
(placement, side to move, castling rights, en-passant target square,
halfmove clock, fullmove number). -/
structure Position where
  board : Board
  turn : Color
  castling : CastleRights
  ep : Option Sq
  halfmove : Nat
  fullmove : Nat

/-- Absolute distance of two naturals (used for the file/rank distance
computations `Math.abs(fromCol - toCol)` etc.). -/
def adist (a b : Nat) : Nat := max a b - min a b

/-- Every square, for exhaustive scans over the board. -/
def allSquares : List Sq :=
  (List.finRange 8).flatMap (fun r => (List.finRange 8).map (fun f => ⟨f, r⟩))

/-- Offset a square by a (file, rank) delta, `none` when off the board. -/
def addDelta (s : Sq) (df dr : Int) : Option Sq :=
  let f : Int := (s.file.val : Int) + df
  let r : Int := (s.rank.val : Int) + dr
  if h : 0 ≤ f ∧ f < 8 ∧ 0 ≤ r ∧ r < 8 then
    some ⟨⟨f.toNat, by omega⟩, ⟨r.toNat, by omega⟩⟩
  else
    none

/-- Integer sign. -/
def isign (i : Int) : Int := if 0 < i then 1 else if i < 0 then -1 else 0

/-- The squares strictly between `s` and `t` on their connecting line
(meaningful when the squares are aligned). -/
def between (s t : Sq) : List Sq :=
  let df := isign ((t.file.val : Int) - (s.file.val : Int))
  let dr := isign ((t.rank.val : Int) - (s.rank.val : Int))
  let n := max (adist s.file.val t.file.val) (adist s.rank.val t.rank.val)
  (List.range (n - 1)).filterMap (fun k => addDelta s (df * (k + 1)) (dr * (k + 1)))

/-- All squares strictly between `s` and `t` are empty. -/
def betweenEmpty (b : Board) (s t : Sq) : Bool :=
  (between s t).all (fun q => (b q).isNone)

/-- Rook-style alignment. -/
def straightAligned (s t : Sq) : Bool :=
  decide ((s.file = t.file ∨ s.rank = t.rank) ∧ s ≠ t)

/-- Bishop-style alignment. -/
def diagAligned (s t : Sq) : Bool :=
  decide (adist s.file.val t.file.val = adist s.rank.val t.rank.val ∧ s ≠ t)

/-- Knight move shape. -/
def knightShape (s t : Sq) : Bool :=
  decide ((adist s.file.val t.file.val = 1 ∧ adist s.rank.val t.rank.val = 2) ∨
    (adist s.file.val t.file.val = 2 ∧ adist s.rank.val t.rank.val = 1))

/-- One-step king move shape. -/
def kingShape (s t : Sq) : Bool :=
  decide (adist s.file.val t.file.val ≤ 1 ∧ adist s.rank.val t.rank.val ≤ 1 ∧ s ≠ t)

/-- Pawn advance direction: white up the board, black down. -/
def pawnDir (c : Color) : Int := if c = Color.white then 1 else -1

/-- Whether a piece of kind `k` and color `c` standing on `s` attacks `t`
on board `b` (capture pattern; for pawns this is the diagonal capture
pattern only). -/
def pieceAttacks (b : Board) (p : Piece) (s t : Sq) : Bool :=
  match p.kind with
  | PieceKind.pawn =>
      decide ((t.rank.val : Int) = (s.rank.val : Int) + pawnDir p.color ∧
        adist s.file.val t.file.val = 1)
  | PieceKind.knight => knightShape s t
  | PieceKind.king => kingShape s t
  | PieceKind.bishop => diagAligned s t && betweenEmpty b s t
  | PieceKind.rook => straightAligned s t && betweenEmpty b s t
  | PieceKind.queen => (diagAligned s t || straightAligned s t) && betweenEmpty b s t

/-- Whether any piece of color `c` attacks square `t` on board `b`. -/
def attacksSq (b : Board) (c : Color) (t : Sq) : Bool :=
  allSquares.any (fun s =>
    match b s with
    | some p => decide (p.color = c) && pieceAttacks b p s t
    | none => false)

/-- The square holding the king of color `c`, if any. -/
def kingSquare (b : Board) (c : Color) : Option Sq :=
  allSquares.find? (fun s => b s = some ⟨c, PieceKind.king⟩)

/-- Whether the king of color `c` is attacked (no king means not in
check, as in chess.js `_isKingAttacked`). -/
def inCheckColor (b : Board) (c : Color) : Bool :=
  match kingSquare b c with
  | some k => attacksSq b c.other k
  | none => false

/-- Classification of the special cases of a chess move. -/
inductive MoveFlag
  | normal
  | doublePush
  | epCapture
  | castleKing
  | castleQueen
deriving DecidableEq, Repr

/-- The data determined by a pseudo-legal move before the king-safety
filter: what lands on the target square, what (if anything) was
captured, and the move's special-case flag. -/
structure PseudoInfo where
  placed : Piece
  captured : Option Piece
  flag : MoveFlag
deriving DecidableEq, Repr

/-- Home rank of a color (rank 1 for white, rank 8 for black). -/
def homeRank (c : Color) : Fin 8 := if c = Color.white then 0 else 7

/-- Pawn start rank (rank 2 for white, rank 7 for black). -/
def startRankNat (c : Color) : Nat := if c = Color.white then 1 else 6

/-- Pawn promotion rank (rank 8 for white, rank 1 for black). -/
def lastRankNat (c : Color) : Nat := if c = Color.white then 7 else 0

/-- The pieces a pawn may promote to. -/
def promotable (k : PieceKind) : Bool :=
  match k with
  | PieceKind.queen => true
  | PieceKind.rook => true
  | PieceKind.bishop => true
  | PieceKind.knight => true
  | _ => false

/-- Kingside castling precondition for color `c` (rights flag, empty
f/g squares, king square and crossing square not attacked); the landing
square's safety is enforced by the global king-safety filter. -/
def canCastleK (pos : Position) (c : Color) : Bool :=
  let r := homeRank c
  (if c = Color.white then pos.castling.wk else pos.castling.bk) &&
  (pos.board ⟨5, r⟩).isNone && (pos.board ⟨6, r⟩).isNone &&
  !(attacksSq pos.board c.other ⟨4, r⟩) && !(attacksSq pos.board c.other ⟨5, r⟩)

/-- Queenside castling precondition for color `c`. -/
def canCastleQ (pos : Position) (c : Color) : Bool :=
  let r := homeRank c
  (if c = Color.white then pos.castling.wq else pos.castling.bq) &&
  (pos.board ⟨3, r⟩).isNone && (pos.board ⟨2, r⟩).isNone && (pos.board ⟨1, r⟩).isNone &&
  !(attacksSq pos.board c.other ⟨4, r⟩) && !(attacksSq pos.board c.other ⟨3, r⟩)

/-- Pseudo-legal move check: piece of the side to move travels from `f`
to `t` obeying its movement pattern (including double push, en passant,
promotion and castling), ignoring the own-king-safety filter.  On the
promotion rank a valid `promotion` piece must be supplied (chess.js
requires the `promotion` field to match a generated promotion move),
and the promoted piece replaces the pawn. -/
def pseudoMove (pos : Position) (f t : Sq) (promo : Option PieceKind) : Option PseudoInfo :=
  match pos.board f with
  | none => none
  | some p =>
    if p.color ≠ pos.turn then none else
    let tgt := pos.board t
    match p.kind with
    | PieceKind.pawn =>
        if t.file = f.file then
          if tgt.isSome then none
          else if (t.rank.val : Int) = (f.rank.val : Int) + pawnDir p.color then
            if t.rank.val = lastRankNat p.color then
              match promo with
              | some pk => if promotable pk then some ⟨⟨p.color, pk⟩, none, MoveFlag.normal⟩
                           else none
              | none => none
            else some ⟨p, none, MoveFlag.normal⟩
          else if f.rank.val = startRankNat p.color ∧
              (t.rank.val : Int) = (f.rank.val : Int) + 2 * pawnDir p.color ∧
              (addDelta f 0 (pawnDir p.color)).all (fun m => (pos.board m).isNone) then
            some ⟨p, none, MoveFlag.doublePush⟩
          else none
        else if adist f.file.val t.file.val = 1 ∧
            (t.rank.val : Int) = (f.rank.val : Int) + pawnDir p.color then
          match tgt with
          | some q =>
              if q.color = p.color then none
              else if t.rank.val = lastRankNat p.color then
                match promo with
                | some pk => if promotable pk then some ⟨⟨p.color, pk⟩, some q, MoveFlag.normal⟩
                             else none
                | none => none
              else some ⟨p, some q, MoveFlag.normal⟩
          | none =>
              if pos.ep = some t then
                some ⟨p, some ⟨p.color.other, PieceKind.pawn⟩, MoveFlag.epCapture⟩
              else none
        else none
    | PieceKind.knight =>
        if knightShape f t then
          match tgt with
          | some q => if q.color = p.color then none else some ⟨p, some q, MoveFlag.normal⟩
          | none => some ⟨p, none, MoveFlag.normal⟩
        else none
    | PieceKind.bishop =>
        if diagAligned f t && betweenEmpty pos.board f t then
          match tgt with
          | some q => if q.color = p.color then none else some ⟨p, some q, MoveFlag.normal⟩
          | none => some ⟨p, none, MoveFlag.normal⟩
        else none
    | PieceKind.rook =>
        if straightAligned f t && betweenEmpty pos.board f t then
          match tgt with
          | some q => if q.color = p.color then none else some ⟨p, some q, MoveFlag.normal⟩
          | none => some ⟨p, none, MoveFlag.normal⟩
        else none
    | PieceKind.queen =>
        if (diagAligned f t || straightAligned f t) && betweenEmpty pos.board f t then
          match tgt with
          | some q => if q.color = p.color then none else some ⟨p, some q, MoveFlag.normal⟩
          | none => some ⟨p, none, MoveFlag.normal⟩
        else none
    | PieceKind.king =>
        if kingShape f t then
          match tgt with
          | some q => if q.color = p.color then none else some ⟨p, some q, MoveFlag.normal⟩
          | none => some ⟨p, none, MoveFlag.normal⟩
        else
          let r := homeRank p.color
          if f = ⟨4, r⟩ ∧ t = ⟨6, r⟩ ∧ canCastleK pos p.color then
            some ⟨p, none, MoveFlag.castleKing⟩
          else if f = ⟨4, r⟩ ∧ t = ⟨2, r⟩ ∧ canCastleQ pos p.color then
            some ⟨p, none, MoveFlag.castleQueen⟩
          else none

/-- Clear both castling rights of a color (after its king moves). -/
def clearColorRights (cr : CastleRights) (c : Color) : CastleRights :=
  if c = Color.white then { cr with wk := false, wq := false }
  else { cr with bk := false, bq := false }

/-- Clear the castling right associated with a corner square
(a move from or a capture on a rook home square disables that side). -/
def clearCornerRights (cr : CastleRights) (s : Sq) : CastleRights :=
  if s = ⟨0, 0⟩ then { cr with wq := false }
  else if s = ⟨7, 0⟩ then { cr with wk := false }
  else if s = ⟨0, 7⟩ then { cr with bq := false }
  else if s = ⟨7, 7⟩ then { cr with bk := false }
  else cr

/-- The square midway between the two ranks of a double push
(the en-passant target square). -/
def midSq (f t : Sq) : Sq :=
  ⟨f.file, ⟨(f.rank.val + t.rank.val) / 2, by
    have h1 := f.rank.isLt
    have h2 := t.rank.isLt
    omega⟩⟩

/-- Apply a pseudo-legal move to the position: board update (including
the rook's leg of castling and the en-passant pawn removal), castling
rights maintenance, en-passant target, halfmove clock (reset on pawn
moves and captures), fullmove number (incremented after black's move)
and side-to-move toggle. -/
def applyPseudo (pos : Position) (f t : Sq) (p : Piece) (info : PseudoInfo) : Position :=
  let b0 := pos.board.setSq f none
  let b1 :=
    match info.flag with
    | MoveFlag.epCapture => b0.setSq ⟨t.file, f.rank⟩ none
    | _ => b0
  let b2 := b1.setSq t (some info.placed)
  let b3 :=
    match info.flag with
    | MoveFlag.castleKing =>
        (b2.setSq ⟨7, homeRank p.color⟩ none).setSq ⟨5, homeRank p.color⟩
          (some ⟨p.color, PieceKind.rook⟩)
    | MoveFlag.castleQueen =>
        (b2.setSq ⟨0, homeRank p.color⟩ none).setSq ⟨3, homeRank p.color⟩
          (some ⟨p.color, PieceKind.rook⟩)
    | _ => b2
  let cr0 := if p.kind = PieceKind.king then clearColorRights pos.castling p.color
             else pos.castling
  let cr := clearCornerRights (clearCornerRights cr0 f) t
  { board := b3
    turn := pos.turn.other
    castling := cr
    ep := if info.flag = MoveFlag.doublePush then some (midSq f t) else none
    halfmove := if p.kind = PieceKind.pawn ∨ info.captured.isSome then 0 else pos.halfmove + 1
    fullmove := if pos.turn = Color.black then pos.fullmove + 1 else pos.fullmove }

/-- The character for a file, `String.fromCharCode(97 + file)`. -/
def fileChar (f : Fin 8) : Char :=
  match f with
  | 0 => 'a'
  | 1 => 'b'
  | 2 => 'c'
  | 3 => 'd'
  | 4 => 'e'
  | 5 => 'f'
  | 6 => 'g'
  | 7 => 'h'

/-- The character for a rank, `'1'`–`'8'`. -/
def rankChar (r : Fin 8) : Char :=
  match r with
  | 0 => '1'
  | 1 => '2'
  | 2 => '3'
  | 3 => '4'
  | 4 => '5'
  | 5 => '6'
  | 6 => '7'
  | 7 => '8'

/-- Algebraic name of a square, e.g. `"e4"`. -/
def sqName (s : Sq) : String :=
  String.mk [fileChar s.file, rankChar s.rank]

/-- Parse a square name as chess.js's `Ox88` lookup accepts it: exactly
a file letter `a`–`h` followed by a rank digit `1`–`8`. -/
def parseSq (s : String) : Option Sq :=
  match s.data with
  | [c, d] =>
      if h : 97 ≤ c.toNat ∧ c.toNat ≤ 104 ∧ 49 ≤ d.toNat ∧ d.toNat ≤ 56 then
        some ⟨⟨c.toNat - 97, by omega⟩, ⟨d.toNat - 49, by omega⟩⟩
      else none
  | _ => none

/-- FEN letter of a piece (upper case white, lower case black). -/
def pieceChar (p : Piece) : Char :=
  match p.color, p.kind with
  | Color.white, PieceKind.pawn => 'P'
  | Color.white, PieceKind.knight => 'N'
  | Color.white, PieceKind.bishop => 'B'
  | Color.white, PieceKind.rook => 'R'
  | Color.white, PieceKind.queen => 'Q'
  | Color.white, PieceKind.king => 'K'
  | Color.black, PieceKind.pawn => 'p'
  | Color.black, PieceKind.knight => 'n'
  | Color.black, PieceKind.bishop => 'b'
  | Color.black, PieceKind.rook => 'r'
  | Color.black, PieceKind.queen => 'q'
  | Color.black, PieceKind.king => 'k'

/-- FEN encoding of one rank: pieces interleaved with run-length counts
of empty squares. -/
def rankFen (b : Board) (r : Fin 8) : String :=
  let step := fun (acc : String × Nat) (f : Fin 8) =>
    match b ⟨f, r⟩ with
    | some p =>
        (acc.1 ++ (if acc.2 = 0 then "" else toString acc.2) ++ String.mk [pieceChar p], 0)
    | none => (acc.1, acc.2 + 1)
  let out := (List.finRange 8).foldl step ("", 0)
  out.1 ++ (if out.2 = 0 then "" else toString out.2)

/-- FEN piece-placement field: ranks 8 down to 1 joined by `/`. -/
def placementFen (b : Board) : String :=
  String.intercalate "/" (((List.finRange 8).reverse).map (fun r => rankFen b r))

/-- FEN castling field (`KQkq` subset or `-`). -/
def castlingFen (cr : CastleRights) : String :=
  let s := (if cr.wk then "K" else "") ++ (if cr.wq then "Q" else "") ++
    (if cr.bk then "k" else "") ++ (if cr.bq then "q" else "")
  if s = "" then "-" else s

/-- Serialize a position to its FEN string (the `game.fen()` of the
rules engine model). -/
def writeFen (pos : Position) : String :=
  String.intercalate " "
    [placementFen pos.board,
     (if pos.turn = Color.white then "w" else "b"),
     castlingFen pos.castling,
     (match pos.ep with | some s => sqName s | none => "-"),
     toString pos.halfmove,
     toString pos.fullmove]

/-- The move object handed to `makeAMove`
(`{ from: string; to: string; promotion?: string }`). -/
structure MoveInput where
  fromSq : String
  toSq : String
  promotion : Option PieceKind
deriving DecidableEq, Repr

/-- The committed-move descriptor (chess.js `Move`, plus the fabricated
object of the king-override branch): color and kind of the mover, the
gesture squares, a SAN-style text, the promotion piece if any, and the
`before`/`after` position strings. -/
structure MoveResult where
  color : Color
  fromSq : String
  toSq : String
  piece : PieceKind
  san : String
  promotion : Option PieceKind
  flags : String
  before : String
  after : String
deriving DecidableEq, Repr

/-- Simplified SAN-style text for an engine move (long algebraic:
piece letter, from, capture mark, to, promotion suffix). -/
def sanOf (p : Piece) (f t : Sq) (info : PseudoInfo) : String :=
  (if p.kind = PieceKind.pawn then "" else String.mk [pieceChar ⟨Color.white, p.kind⟩]) ++
  sqName f ++ (if info.captured.isSome then "x" else "") ++ sqName t ++
  (if info.placed.kind = p.kind then "" else "=" ++ String.mk [pieceChar ⟨Color.white, info.placed.kind⟩])

/-- Core of the modelled rules engine on parsed squares: pseudo-legal
movement then the own-king-safety filter; on success the committed
`Move` descriptor and the successor position. -/
def engineMoveSq (pos : Position) (f t : Sq) (promo : Option PieceKind) :
    Option (MoveResult × Position) :=
  match pos.board f with
  | none => none
  | some p =>
    match pseudoMove pos f t promo with
    | none => none
    | some info =>
        let pos' := applyPseudo pos f t p info
        if inCheckColor pos'.board pos.turn then none
        else
          some ({ color := p.color
                  fromSq := sqName f
                  toSq := sqName t
                  piece := p.kind
                  san := sanOf p f t info
                  promotion := if info.placed.kind = p.kind then none else some info.placed.kind
                  flags := ""
                  before := writeFen pos
                  after := writeFen pos' }, pos')

/-- Modelled from the spec: the external rules engine's `game.move`
("full chess legality"; rejection observable as a null result, which the
king-override branch of `makeAMove` tests).  Takes the raw gesture
strings; unparseable squares are rejected. -/
def engineMove (pos : Position) (m : MoveInput) : Option (MoveResult × Position) :=
  match parseSq m.fromSq, parseSq m.toSq with
  | some f, some t => engineMoveSq pos f t m.promotion
  | _, _ => none

/-- JS `parseInt` on a single character: its value for a digit,
`NaN` (here `none`) otherwise. -/
def digitVal (c : Char) : Option Nat :=
  if c.isDigit then some (c.toNat - 48) else none

/-- The king-override adjacency test of `makeAMove`:
`charCodeAt(0)` / `parseInt(pos[1])` on both gesture strings, then
`colDiff <= 1 && rowDiff <= 1`; any `NaN` (short string or non-digit
rank character) makes the comparison false. -/
def adjacentStr (f t : String) : Bool :=
  match f.data, t.data with
  | c1 :: d1 :: _, c2 :: d2 :: _ =>
      match digitVal d1, digitVal d2 with
      | some r1, some r2 => decide (adist c1.toNat c2.toNat ≤ 1 ∧ adist r1 r2 ≤ 1)
      | _, _ => false
  | _, _ => false

/-- chess.js `game.get(square)`: `none` on an unparseable square name. -/
def Position.get (pos : Position) (s : String) : Option Piece :=
  match parseSq s with
  | some q => pos.board q
  | none => none

/-- chess.js `game.remove(square)`: returns the removed piece (if any)
and the updated game. -/
def Position.removeStr (pos : Position) (s : String) : Option Piece × Position :=
  match parseSq s with
  | some q => (pos.board q, { pos with board := pos.board.setSq q none })
  | none => (none, pos)

/-- chess.js `game.put(piece, square)`: places the piece, overwriting
the square's content; an unparseable square leaves the game unchanged
(the source ignores `put`'s boolean result). -/
def Position.putStr (pos : Position) (p : Piece) (s : String) : Position :=
  match parseSq s with
  | some q => { pos with board := pos.board.setSq q (some p) }
  | none => pos

/-- `playerColor === 'white' ? 'w' : 'b'` of `part_001`'s `makeAMove`:
a null/absent player color is compared as black. -/
def part001PColor (playerColor : Option Color) : Color :=
  if playerColor = some Color.white then Color.white else Color.black

namespace Part001

/-- `makeAMove` of the `ChessGame` revision in `src/unnamed/part_001`
(the king-movement-variant controller).  State passing: takes the held
game position, returns the chess.js move result (or `null`) and the new
held position.  Online games (`isLocal = false`, i.e. an `onMove`
callback was supplied) are gated on `game.turn()` matching the
`playerColor` prop; a failed engine move falls through to the
king-adjacency override, which force-applies the move by remove/put and
manual FEN bookkeeping (turn toggle, halfmove reset, fullmove increment
after a black mover). -/
def makeAMove (isLocal : Bool) (playerColor : Option Color) (game : Position)
    (move : MoveInput) : Option MoveResult × Position :=
  if isLocal = false ∧ game.turn ≠ part001PColor playerColor then (none, game)
  else
    match engineMove game move with
    | some (result, game') => (some result, game')
    | none =>
        match Position.get game move.fromSq with
        | some piece =>
            if piece.kind = PieceKind.king ∧ adjacentStr move.fromSq move.toSq then
              let rem := Position.removeStr game move.fromSq
              match rem.1 with
              | some pieceToMove =>
                  let temp := Position.putStr rem.2 pieceToMove move.toSq
                  let nextPos : Position :=
                    { temp with
                      turn := temp.turn.other
                      halfmove := 0
                      fullmove := if pieceToMove.color = Color.black then temp.fullmove + 1
                                  else temp.fullmove }
                  (some { color := pieceToMove.color
                          fromSq := move.fromSq
                          toSq := move.toSq
                          piece := pieceToMove.kind
                          san := "K" ++ move.toSq
                          promotion := none
                          flags := "n"
                          before := move.fromSq
                          after := writeFen nextPos }, nextPos)
              | none => (none, game)
            else (none, game)
        | none => (none, game)

/-- `onDrop` of `part_001`: attempts the move with promotion fixed to
queen; returns whether the drop is accepted, with the new held state. -/
def onDrop (isLocal : Bool) (playerColor : Option Color) (game : Position)
    (sourceSquare targetSquare : String) : Bool × Position :=
  let res := makeAMove isLocal playerColor game
    { fromSq := sourceSquare, toSq := targetSquare, promotion := some PieceKind.queen }
  (res.1.isSome, res.2)

/-- The move attempt of `onSquareClick`'s second phase in `part_001`:
the stored `moveFrom` square and the clicked square, promotion fixed to
queen. -/
def onSquareClickAttempt (isLocal : Bool) (playerColor : Option Color) (game : Position)
    (moveFrom square : String) : Option MoveResult × Position :=
  makeAMove isLocal playerColor game
    { fromSq := moveFrom, toSq := square, promotion := some PieceKind.queen }

end Part001

namespace ChessBoard

/-- `makeAMove` of `src/components/ChessBoard.tsx` (the controller the
game page renders): same engine delegation but no king override, and
the online turn gate compares `game.turn()` against the `orientation`
prop. -/
def makeAMove (isLocal : Bool) (orientation : Color) (game : Position)
    (move : MoveInput) : Option MoveResult × Position :=
  if isLocal = false ∧ game.turn ≠ orientation then (none, game)
  else
    match engineMove game move with
    | some (result, game') => (some result, game')
    | none => (none, game)

/-- `onDrop` of `ChessBoard.tsx`: promotion fixed to queen. -/
def onDrop (isLocal : Bool) (orientation : Color) (game : Position)
    (sourceSquare targetSquare : String) : Bool × Position :=
  let res := makeAMove isLocal orientation game
    { fromSq := sourceSquare, toSq := targetSquare, promotion := some PieceKind.queen }
  (res.1.isSome, res.2)

/-- The move attempt of `onSquareClick`'s second phase in
`ChessBoard.tsx`: promotion fixed to queen. -/
def onSquareClickAttempt (isLocal : Bool) (orientation : Color) (game : Position)
    (moveFrom square : String) : Option MoveResult × Position :=
  makeAMove isLocal orientation game
    { fromSq := moveFrom, toSq := square, promotion := some PieceKind.queen }

end ChessBoard

/-- The game page's `orientation={playerColor || 'white'}` wiring: an
unassigned viewer (spectator) is rendered — and therefore gated — as
white. -/
def pageOrientation (playerColor : Option Color) : Color :=
  match playerColor with
  | some c => c
  | none => Color.white

/-- Player-color resolution of `fetchGame`: the session user's id is
compared against the stored participant ids; a viewer matching neither
keeps `playerColor = null`. -/
def resolveColor (userId : Option String) (whitePlayerId blackPlayerId : Option String) :
    Option Color :=
  match userId with
  | none => none
  | some u =>
      if whitePlayerId = some u then some Color.white
      else if blackPlayerId = some u then some Color.black
      else none

/-- A row of the `moves` table, as inserted by `handleMove` and as
delivered in a move-insert notification payload.  (`notationText` is
the `notation` column.) -/
structure MoveRow where
  game_id : String
  move_number : Nat
  notationText : String
  from_square : String
  to_square : String
  fen_before : String
  fen_after : String
deriving DecidableEq, Repr

/-- The fields a `games`-row update may set.  `none` means the field is
not part of the update; `some none` means the field is set to SQL
`null`. -/
structure GameUpdate where
  status : Option String
  winner_id : Option (Option String)
  draw_offered_by : Option (Option String)
  fen : Option String
deriving DecidableEq, Repr

/-- A database operation issued by the game page. -/
inductive DbOp
  | insertMove (row : MoveRow)
  | updateGame (gameId : String) (u : GameUpdate)
  | deleteMoves (gameId : String)
deriving DecidableEq, Repr

/-- Whether an operation deletes rows of the `moves` table. -/
def DbOp.isDeleteMoves : DbOp → Bool
  | DbOp.deleteMoves _ => true
  | _ => false

/-- Whether an operation inserts a row into the `moves` table. -/
def DbOp.isInsertMove : DbOp → Bool
  | DbOp.insertMove _ => true
  | _ => false

/-- Whether an operation updates the `games` row. -/
def DbOp.isUpdateGame : DbOp → Bool
  | DbOp.updateGame _ _ => true
  | _ => false

/-- The `moves` row built by `handleMove` from a committed move
descriptor, with `move_number: moves.length + 1`. -/
def mkRow (gameId : String) (movesLen : Nat) (move : MoveResult) : MoveRow :=
  { game_id := gameId
    move_number := movesLen + 1
    notationText := move.san
    from_square := move.fromSq
    to_square := move.toSq
    fen_before := move.before
    fen_after := move.after }

/-- `handleMove` of the game page (`src/app/game/[id]/page.tsx`,
revision with the local move list): skips local games, inserts the move
row, and — only when the insert reported no error — updates the games
row's `fen` to the committed move's `after`.  `insertError` is the
outcome of the insert reported by the database client; on error the
code only logs.  The returned list is the sequence of issued database
operations. -/
def handleMove (gameId : String) (movesLen : Nat) (move : MoveResult)
    (insertError : Bool) : List DbOp :=
  if gameId = "" ∨ gameId = "local-game" then []
  else
    DbOp.insertMove (mkRow gameId movesLen move) ::
      (if insertError then []
       else [DbOp.updateGame gameId
         { status := none, winner_id := none, draw_offered_by := none, fen := some move.after }])

/-- Modelled from the spec: the rules engine's `history()` on an
instance freshly constructed from a position string — `history()`
records only the moves made on that instance, so a `new Chess(fen)`
always reports an empty history. -/
def historyOfNewChess (_fen : String) : List String := []

/-- `handleMove` of the first game-page revision (the one without a
local move list): `move_number` is read from
`initialGame.history().length` where `initialGame = new Chess(fen)` is
memoized from the current position string — which is always 0. -/
def handleMoveRev1 (gameId : String) (fen : String) (move : MoveResult)
    (insertError : Bool) : List DbOp :=
  if gameId = "" ∨ gameId = "local-game" then []
  else
    DbOp.insertMove
      { game_id := gameId
        move_number := (historyOfNewChess fen).length
        notationText := move.san
        from_square := move.fromSq
        to_square := move.toSq
        fen_before := move.before
        fen_after := move.after } ::
      (if insertError then []
       else [DbOp.updateGame gameId
         { status := none, winner_id := none, draw_offered_by := none,
           fen := some move.after }])

/-- `handleResign`: requires an online game, an assigned color and the
user confirming the dialog; updates the games row to
`status: 'finished', winner_id: null`. -/
def handleResign (gameId : String) (playerColor : Option Color) (confirmed : Bool) :
    List DbOp :=
  if gameId = "" ∨ gameId = "local-game" ∨ playerColor = none then []
  else if confirmed = false then []
  else [DbOp.updateGame gameId
    { status := some "finished", winner_id := some none, draw_offered_by := none, fen := none }]

/-- `handleAcceptDraw`: updates the games row to
`status: 'draw', draw_offered_by: null`. -/
def handleAcceptDraw (gameId : String) : List DbOp :=
  if gameId = "" ∨ gameId = "local-game" then []
  else [DbOp.updateGame gameId
    { status := some "draw", winner_id := none, draw_offered_by := some none, fen := none }]

/-- The moves-INSERT subscription handler of the game page: sets the
visible position to the payload's `fen_after` and appends the payload's
notation to the visible move list unless it equals the newest local
entry (`prev[prev.length - 1]`; for an empty list the JS comparison
against `undefined` is false, so the notation is appended). -/
def onMoveInsert (_fen : String) (moves : List String) (payload : MoveRow) :
    String × List String :=
  (payload.fen_after,
   if moves.getLast? = some payload.notationText then moves
   else moves ++ [payload.notationText])

/-- Kind of the piece on a back-rank file in the standard starting
position. -/
def backRankKind (f : Fin 8) : PieceKind :=
  match f with
  | 0 => PieceKind.rook
  | 1 => PieceKind.knight
  | 2 => PieceKind.bishop
  | 3 => PieceKind.queen
  | 4 => PieceKind.king
  | 5 => PieceKind.bishop
  | 6 => PieceKind.knight
  | 7 => PieceKind.rook

/-- The standard starting board. -/
def startBoard : Board := fun s =>
  if s.rank = 0 then some ⟨Color.white, backRankKind s.file⟩
  else if s.rank = 1 then some ⟨Color.white, PieceKind.pawn⟩
  else if s.rank = 6 then some ⟨Color.black, PieceKind.pawn⟩
  else if s.rank = 7 then some ⟨Color.black, backRankKind s.file⟩
  else none

/-- The standard starting position
(`rnbqkbnr/pppppppp/8/8/8/8/PPPPPPPP/RNBQKBNR w KQkq - 0 1`). -/
def startPos : Position :=
  { board := startBoard
    turn := Color.white
    castling := ⟨true, true, true, true⟩
    ep := none
    halfmove := 0
    fullmove := 1 }

/-- The starting placement with black to move (a position whose FEN
side-to-move field disagrees with an empty local move list). -/
def blackToMoveStart : Position := { startPos with turn := Color.black }

/-- A bare-kings position: white king e1, black king e8, white to move. -/
def kingsBoard : Board := fun s =>
  if s = ⟨4, 0⟩ then some ⟨Color.white, PieceKind.king⟩
  else if s = ⟨4, 7⟩ then some ⟨Color.black, PieceKind.king⟩
  else none

/-- Bare-kings position, white to move. -/
def kingsPos : Position :=
  { board := kingsBoard
    turn := Color.white
    castling := ⟨false, false, false, false⟩
    ep := none
    halfmove := 0
    fullmove := 1 }

/-- A promotion position: white pawn a7, white king e1, black king h8,
white to move. -/
def promoBoard : Board := fun s =>
  if s = ⟨0, 6⟩ then some ⟨Color.white, PieceKind.pawn⟩
  else if s = ⟨4, 0⟩ then some ⟨Color.white, PieceKind.king⟩
  else if s = ⟨7, 7⟩ then some ⟨Color.black, PieceKind.king⟩
  else none

/-- Promotion position, white to move. -/
def promoPos : Position :=
  { board := promoBoard
    turn := Color.white
    castling := ⟨false, false, false, false⟩
    ep := none
    halfmove := 0
    fullmove := 1 }

/-- The claim's "target is empty or holds an enemy piece" as an
executable predicate on a position. -/
def emptyOrEnemy (pos : Position) (t : Sq) (c : Color) : Bool :=
  match pos.board t with
  | none => true
  | some q => decide (q.color ≠ c)

theorem parse_sqName (s : Sq) : parseSq (sqName s) = some s := by
  obtain ⟨a, b⟩ := s
  fin_cases a <;> fin_cases b <;> decide

theorem adjacentStr_sqName (f t : Sq) :
    adjacentStr (sqName f) (sqName t) =
      decide (adist f.file.val t.file.val ≤ 1 ∧ adist f.rank.val t.rank.val ≤ 1) := by
  obtain ⟨a, b⟩ := f
  obtain ⟨c, d⟩ := t
  revert a b c d
  decide

/-- The online turn gate of `part_001`'s `makeAMove` in isolation:
with an `onMove` callback present, the attempt is rejected up front
exactly when the held position's side to move differs from the
viewer's gate color, and otherwise behaves as in local mode. -/
theorem part001_gate (playerColor : Option Color) (pos : Position) (m : MoveInput) :
    Part001.makeAMove false playerColor pos m =
      (if pos.turn = part001PColor playerColor then
        Part001.makeAMove true playerColor pos m
       else (none, pos)) := by
  by_cases h : pos.turn = part001PColor playerColor
  · rw [if_pos h]
    unfold Part001.makeAMove
    rw [if_neg (by simp [h]), if_neg (by simp)]
  · rw [if_neg h]
    unfold Part001.makeAMove
    rw [if_pos ⟨rfl, h⟩]

/-- The online turn gate of `ChessBoard.tsx`'s `makeAMove` in
isolation. -/
theorem chessBoard_gate (orientation : Color) (pos : Position) (m : MoveInput) :
    ChessBoard.makeAMove false orientation pos m =
      (if pos.turn = orientation then ChessBoard.makeAMove true orientation pos m
       else (none, pos)) := by
  by_cases h : pos.turn = orientation
  · rw [if_pos h]
    unfold ChessBoard.makeAMove
    rw [if_neg (by simp [h]), if_neg (by simp)]
  · rw [if_neg h]
    unfold ChessBoard.makeAMove
    rw [if_pos ⟨rfl, h⟩]

/-- The committed `Move` descriptor of the modelled engine carries the
FEN of the position before the move in `before` and the FEN of the
successor position in `after`. -/
theorem engineMove_fens (pos : Position) (m : MoveInput) (r : MoveResult) (pos' : Position)
    (h : engineMove pos m = some (r, pos')) :
    r.before = writeFen pos ∧ r.after = writeFen pos' := by
  unfold engineMove at h
  split at h
  · unfold engineMoveSq at h
    split at h
    · cases h
    · split at h
      · cases h
      · split at h
        all_goals dsimp only at h
        all_goals split at h
        any_goals cases h
        all_goals exact ⟨rfl, rfl⟩
  · cases h

/-- With the promotion piece fixed to queen, whatever a pseudo-legal
move places on the target square is either the moving piece itself or
a queen of the mover's color (no underpromotion can be generated). -/
theorem pseudoMove_placed_queen (pos : Position) (f t : Sq) (p : Piece) (info : PseudoInfo)
    (hb : pos.board f = some p)
    (h : pseudoMove pos f t (some PieceKind.queen) = some info) :
    info.placed = p ∨ info.placed = ⟨p.color, PieceKind.queen⟩ := by
  unfold pseudoMove at h
  simp only [hb] at h
  split at h
  · cases h
  · repeat' first
      | split at h
      | dsimp only at h
    any_goals cases h
    all_goals first
      | exact Or.inl rfl
      | exact Or.inr rfl

/-- Decomposition of a successful engine move on parsed squares:
a mover stood on the source, the move was pseudo-legal, the successor
position is its application, and the descriptor's promotion field
records a changed piece kind. -/
theorem engineMoveSq_success (pos : Position) (f t : Sq) (promo : Option PieceKind)
    (r : MoveResult) (pos' : Position)
    (h : engineMoveSq pos f t promo = some (r, pos')) :
    ∃ p info, pos.board f = some p ∧ pseudoMove pos f t promo = some info ∧
      pos' = applyPseudo pos f t p info ∧
      r.promotion = (if info.placed.kind = p.kind then none else some info.placed.kind) := by
  rcases hb : pos.board f with _ | p
  · unfold engineMoveSq at h
    simp only [hb] at h
    cases h
  · rcases hps : pseudoMove pos f t promo with _ | info
    · unfold engineMoveSq at h
      simp only [hb, hps] at h
      cases h
    · unfold engineMoveSq at h
      simp only [hb, hps] at h
      try dsimp only at h
      split at h
      · cases h
      · simp only [Option.some_inj, Prod.mk.injEq] at h
        exact ⟨p, info, rfl, rfl, h.2.symm, by rw [← h.1]⟩

/-- Decomposition of a successful engine move on gesture strings:
both square names parsed. -/
theorem engineMove_success (pos : Position) (m : MoveInput) (r : MoveResult) (pos' : Position)
    (h : engineMove pos m = some (r, pos')) :
    ∃ f t, parseSq m.fromSq = some f ∧ parseSq m.toSq = some t ∧
      engineMoveSq pos f t m.promotion = some (r, pos') := by
  rcases hf : parseSq m.fromSq with _ | f
  · unfold engineMove at h
    simp only [hf] at h
    cases h
  · rcases ht : parseSq m.toSq with _ | t
    · unfold engineMove at h
      simp only [hf, ht] at h
      cases h
    · unfold engineMove at h
      simp only [hf, ht] at h
      exact ⟨f, t, rfl, rfl, h⟩

/-- With the promotion piece fixed to queen, a committed engine move's
promotion field is either absent or queen (no underpromotion). -/
theorem engineMove_promotion_queen (pos : Position) (m : MoveInput)
    (r : MoveResult) (pos' : Position)
    (hq : m.promotion = some PieceKind.queen)
    (h : engineMove pos m = some (r, pos')) :
    r.promotion = none ∨ r.promotion = some PieceKind.queen := by
  obtain ⟨f, t, _, _, hsq⟩ := engineMove_success pos m r pos' h
  rw [hq] at hsq
  obtain ⟨p, info, hb, hps, _, hpromo⟩ := engineMoveSq_success pos f t _ r pos' hsq
  by_cases hkind : info.placed.kind = p.kind
  · left
    rw [hpromo, if_pos hkind]
  · right
    rcases pseudoMove_placed_queen pos f t p info hb hps with hpl | hpl
    · exact absurd (by rw [hpl]) hkind
    · rw [hpromo, if_neg hkind, hpl]

/-- A pseudo-legal pawn move onto the promotion rank (in a position
whose en-passant field is well-formed, i.e. on rank 3 or 6 as chess.js
FEN validation enforces) with promotion piece queen places a queen of
the mover's color, as an ordinary (non-special) move. -/
theorem pseudoMove_pawn_promo (pos : Position) (f t : Sq) (p : Piece) (info : PseudoInfo)
    (hep : ∀ e, pos.ep = some e → e.rank.val = 2 ∨ e.rank.val = 5)
    (hb : pos.board f = some p) (hk : p.kind = PieceKind.pawn)
    (ht : t.rank.val = lastRankNat p.color)
    (h : pseudoMove pos f t (some PieceKind.queen) = some info) :
    info.placed = ⟨p.color, PieceKind.queen⟩ ∧ info.flag = MoveFlag.normal := by
  unfold pseudoMove at h
  simp only [hb, hk] at h
  repeat' first
    | split at h
    | dsimp only at h
  any_goals cases h
  all_goals first
    | exact ⟨rfl, rfl⟩
    | exact absurd ht (by assumption)
    | (exfalso
       have hc : f.rank.val = startRankNat p.color ∧
           (t.rank.val : Int) = (f.rank.val : Int) + 2 * pawnDir p.color ∧
           (addDelta f 0 (pawnDir p.color)).all (fun m => (pos.board m).isNone) := by
         assumption
       cases hcol : p.color
       all_goals rw [hcol] at hc ht
       all_goals simp [startRankNat, lastRankNat, pawnDir] at hc ht
       all_goals omega)
    | (exfalso
       have hept : pos.ep = some t := by assumption
       rcases hep t hept with h25 | h25
       all_goals cases hcol : p.color
       all_goals rw [hcol] at ht
       all_goals simp [lastRankNat] at ht
       all_goals omega)

/-- An ordinary (non-special) move application leaves the placed piece
on the target square. -/
theorem applyPseudo_board_t (pos : Position) (f t : Sq) (p : Piece) (info : PseudoInfo)
    (hflag : info.flag = MoveFlag.normal) :
    (applyPseudo pos f t p info).board t = some info.placed := by
  unfold applyPseudo
  rw [hflag]
  dsimp only
  unfold Board.setSq
  rw [if_pos rfl]

/-- C4: For every inbound new-move-inserted notification on the active
game, the visible position is updated to the notification's
`fen_after`, and the notification's notation is appended to the visible
move list unless it equals the last locally recorded notation, in which
case the move list is left unchanged (no duplicate history entry). -/
theorem C4_move_insert_dedup (fen : String) (moves : List String) (payload : MoveRow) :
    (onMoveInsert fen moves payload).1 = payload.fen_after ∧
    (moves.getLast? = some payload.notationText →
      (onMoveInsert fen moves payload).2 = moves) ∧
    (moves.getLast? ≠ some payload.notationText →
      (onMoveInsert fen moves payload).2 = moves ++ [payload.notationText]) := by
  refine ⟨rfl, ?_, ?_⟩ <;> intro h <;> simp [onMoveInsert, h]

theorem C4_witness :
    (onMoveInsert "f0" ["e4"] ⟨"g", 1, "e4", "e2", "e4", "fb", "fa"⟩).2 = ["e4"] ∧
    (onMoveInsert "f0" ["e4"] ⟨"g", 2, "Nf3", "g1", "f3", "fb", "fa"⟩).2 = ["e4", "Nf3"] :=
  ⟨(C4_move_insert_dedup "f0" ["e4"] ⟨"g", 1, "e4", "e2", "e4", "fb", "fa"⟩).2.1 (by decide),
   (C4_move_insert_dedup "f0" ["e4"] ⟨"g", 2, "Nf3", "g1", "f3", "fb", "fa"⟩).2.2 (by decide)⟩

/-- C7: For every committed move in an online game, the client first
inserts the move row; on an insert error the error is only logged (no
retry: exactly one insert is issued, and the games row is not
touched); on success the games row's `fen` is updated to the committed
move's `fen_after`. -/
theorem C7_move_save_failure (gameId : String) (movesLen : Nat) (move : MoveResult)
    (insertError : Bool) (h1 : gameId ≠ "") (h2 : gameId ≠ "local-game") :
    (handleMove gameId movesLen move insertError).head? =
      some (DbOp.insertMove (mkRow gameId movesLen move)) ∧
    ((handleMove gameId movesLen move insertError).filter DbOp.isInsertMove).length = 1 ∧
    (insertError = true → handleMove gameId movesLen move insertError =
      [DbOp.insertMove (mkRow gameId movesLen move)]) ∧
    (insertError = false → handleMove gameId movesLen move insertError =
      [DbOp.insertMove (mkRow gameId movesLen move),
       DbOp.updateGame gameId
         { status := none, winner_id := none, draw_offered_by := none,
           fen := some move.after }]) := by
  unfold handleMove
  rw [if_neg (by simp [h1, h2])]
  cases insertError <;>
    exact ⟨rfl, rfl, fun h => by simp at h ⊢, fun h => by simp at h ⊢⟩

/-- A committed-move descriptor used to instantiate the persistence
theorems at a concrete input. -/
def mvSample : MoveResult :=
  { color := Color.white
    fromSq := "e2"
    toSq := "e4"
    piece := PieceKind.pawn
    san := "e2e4"
    promotion := none
    flags := ""
    before := "fb"
    after := "fa" }

theorem C7_witness :
    handleMove "g" 0 mvSample true = [DbOp.insertMove (mkRow "g" 0 mvSample)] ∧
    handleMove "g" 0 mvSample false =
      [DbOp.insertMove (mkRow "g" 0 mvSample),
       DbOp.updateGame "g"
         { status := none, winner_id := none, draw_offered_by := none,
           fen := some mvSample.after }] :=
  ⟨(C7_move_save_failure "g" 0 mvSample true (by decide) (by decide)).2.2.1 rfl,
   (C7_move_save_failure "g" 0 mvSample false (by decide) (by decide)).2.2.2 rfl⟩

/-- C8 counterexample: the first page revision persists the first move
of a game (indeed every move) with `move_number = 0`, because
`initialGame.history().length` is read from an instance freshly
constructed from the current FEN — refuting the claim that the first
move is persisted with `move_number = 1` and that numbers increase by
one. -/
theorem C8_counterexample :
    (handleMoveRev1 "g" "rnbqkbnr/pppppppp/8/8/8/8/PPPPPPPP/RNBQKBNR w KQkq - 0 1"
        mvSample true).head? =
      some (DbOp.insertMove
        { game_id := "g", move_number := 0, notationText := "e2e4",
          from_square := "e2", to_square := "e4", fen_before := "fb",
          fen_after := "fa" }) ∧
    (0 : Nat) ≠ 1 :=
  ⟨rfl, by decide⟩

/-- C8 (amended): in the page revision holding the local move list,
every inserted move row carries `move_number = N + 1` where `N` is the
count of locally recorded moves (so the first move gets 1); in the
earlier revision, `move_number` is `initialGame.history().length`,
which is always 0 (the instance is freshly constructed from the
current FEN), so every row of that revision is numbered 0 — neither
1-based nor increasing. -/
theorem C8_move_number_amended (gameId fen : String) (movesLen : Nat) (move : MoveResult)
    (insertError : Bool) (row : MoveRow) :
    (DbOp.insertMove row ∈ handleMove gameId movesLen move insertError →
      row.move_number = movesLen + 1) ∧
    (DbOp.insertMove row ∈ handleMoveRev1 gameId fen move insertError →
      row.move_number = 0) := by
  constructor
  · intro hmem
    unfold handleMove at hmem
    split at hmem
    · cases hmem
    · rcases List.mem_cons.mp hmem with h | h
      · cases h
        rfl
      · split at h <;> simp at h
  · intro hmem
    unfold handleMoveRev1 at hmem
    split at hmem
    · cases hmem
    · rcases List.mem_cons.mp hmem with h | h
      · cases h
        rfl
      · split at h <;> simp at h

theorem C8_witness :
    (mkRow "g" 0 mvSample).move_number = 1 ∧
    ({ game_id := "g", move_number := 0, notationText := "e2e4", from_square := "e2",
       to_square := "e4", fen_before := "fb", fen_after := "fa" } : MoveRow).move_number =
      0 :=
  ⟨(C8_move_number_amended "g" "f" 0 mvSample true (mkRow "g" 0 mvSample)).1 (by decide),
   (C8_move_number_amended "g" "f" 0 mvSample true
      { game_id := "g", move_number := 0, notationText := "e2e4", from_square := "e2",
        to_square := "e4", fen_before := "fb", fen_after := "fa" }).2 (by decide)⟩

/-- C5 counterexample: on a live online resignation (and on a draw
acceptance), the issued operations are nonempty and none of them
deletes rows of the game's move log — refuting the claim that a
best-effort move-log deletion is also issued. -/
theorem C5_counterexample :
    handleResign "g1" (some Color.white) true ≠ [] ∧
    (handleResign "g1" (some Color.white) true).all (fun op => !op.isDeleteMoves) = true ∧
    handleAcceptDraw "g1" ≠ [] ∧
    (handleAcceptDraw "g1").all (fun op => !op.isDeleteMoves) = true := by
  refine ⟨by decide, by decide, by decide, by decide⟩

/-- C5 (amended): resignation and draw acceptance in an online game
only update the games row (`status`/`winner_id`, resp.
`status`/`draw_offered_by`); no deletion of the game's move rows is
issued. -/
theorem C5_amended_no_move_log_deletion (gameId : String) (playerColor : Color)
    (h1 : gameId ≠ "") (h2 : gameId ≠ "local-game") :
    handleResign gameId (some playerColor) true =
      [DbOp.updateGame gameId
        { status := some "finished", winner_id := some none, draw_offered_by := none,
          fen := none }] ∧
    handleAcceptDraw gameId =
      [DbOp.updateGame gameId
        { status := some "draw", winner_id := none, draw_offered_by := some none,
          fen := none }] := by
  constructor
  · unfold handleResign
    rw [if_neg (by simp [h1, h2])]
    rfl
  · unfold handleAcceptDraw
    rw [if_neg (by simp [h1, h2])]

theorem C5_witness :
    handleResign "g1" (some Color.white) true =
      [DbOp.updateGame "g1"
        { status := some "finished", winner_id := some none, draw_offered_by := none,
          fen := none }] ∧
    handleAcceptDraw "g1" =
      [DbOp.updateGame "g1"
        { status := some "draw", winner_id := none, draw_offered_by := some none,
          fen := none }] :=
  C5_amended_no_move_log_deletion "g1" Color.white (by decide) (by decide)

/-- C2 counterexample: with zero locally recorded moves (even count, so
the claim's parity rule says white is to move and a black-assigned
viewer must be rejected), a black-assigned viewer's move is committed
whenever the held position string says black is to move — the gate
reads `game.turn()` from the position, not the move-list parity. -/
theorem C2_counterexample :
    ([] : List String).length % 2 = 0 ∧
    (Part001.makeAMove false (some Color.black) blackToMoveStart
      ⟨"e7", "e5", some PieceKind.queen⟩).1.isSome = true := by
  refine ⟨rfl, by decide⟩

/-- C2 (amended): in online mode the attempt is rejected by the turn
gate exactly when the held position string's side-to-move field differs
from the viewer's gate color (`playerColor`, with null compared as
black, in `part_001`; the `orientation` prop in `ChessBoard.tsx`);
when they agree the attempt proceeds exactly as in local mode.  The
locally held move list is not consulted. -/
theorem C2_turn_gate_amended (playerColor : Option Color) (orientation : Color)
    (pos : Position) (m : MoveInput) :
    Part001.makeAMove false playerColor pos m =
      (if pos.turn = part001PColor playerColor then
        Part001.makeAMove true playerColor pos m
       else (none, pos)) ∧
    ChessBoard.makeAMove false orientation pos m =
      (if pos.turn = orientation then ChessBoard.makeAMove true orientation pos m
       else (none, pos)) :=
  ⟨part001_gate playerColor pos m, chessBoard_gate orientation pos m⟩

/-- C6 counterexample: a viewer matching neither stored participant
resolves no color, yet the page renders the board with
`orientation = playerColor || 'white'`, so that spectator's drag of a
white piece on white's turn is committed — refuting "no input gesture
of a spectator ever commits a move". -/
theorem C6_counterexample :
    resolveColor (some "intruder") (some "alice") (some "bob") = none ∧
    (ChessBoard.makeAMove false
      (pageOrientation (resolveColor (some "intruder") (some "alice") (some "bob")))
      startPos ⟨"e2", "e4", some PieceKind.queen⟩).1.isSome = true := by
  refine ⟨by decide, by decide⟩

/-- C6 (amended): a viewer whose identity matches neither stored
participant is resolved to no color (a spectator); however such a
spectator is gated as the default orientation color white, so their
gestures behave exactly like a white player's: rejected up front only
when white is not to move, committed otherwise whenever the move is
accepted. -/
theorem C6_spectator_amended (u : String) (whitePlayerId blackPlayerId : Option String)
    (pos : Position) (m : MoveInput)
    (h1 : whitePlayerId ≠ some u) (h2 : blackPlayerId ≠ some u) :
    resolveColor (some u) whitePlayerId blackPlayerId = none ∧
    pageOrientation (resolveColor (some u) whitePlayerId blackPlayerId) = Color.white ∧
    ChessBoard.makeAMove false
        (pageOrientation (resolveColor (some u) whitePlayerId blackPlayerId)) pos m =
      (if pos.turn = Color.white then ChessBoard.makeAMove true Color.white pos m
       else (none, pos)) := by
  have hr : resolveColor (some u) whitePlayerId blackPlayerId = none := by
    unfold resolveColor
    dsimp only
    rw [if_neg h1, if_neg h2]
  refine ⟨hr, by rw [hr]; rfl, ?_⟩
  rw [hr]
  exact chessBoard_gate Color.white pos m

theorem C6_witness :
    resolveColor (some "intruder") (some "alice") (some "bob") = none ∧
    pageOrientation (resolveColor (some "intruder") (some "alice") (some "bob")) =
      Color.white ∧
    ChessBoard.makeAMove false
        (pageOrientation (resolveColor (some "intruder") (some "alice") (some "bob")))
        startPos ⟨"e2", "e4", some PieceKind.queen⟩ =
      (if startPos.turn = Color.white then
        ChessBoard.makeAMove true Color.white startPos ⟨"e2", "e4", some PieceKind.queen⟩
       else (none, startPos)) :=
  C6_spectator_amended "intruder" (some "alice") (some "bob") startPos
    ⟨"e2", "e4", some PieceKind.queen⟩ (by decide) (by decide)

/-- C9: `makeAMove` is total (modelled as a total function returning a
committed descriptor or null) and rejection has no effect on state:
whenever it returns null, the held board position is unchanged, in both
controller revisions, for any gesture strings and any held position. -/
theorem C9_null_leaves_state (isLocal : Bool) (playerColor : Option Color)
    (orientation : Color) (pos : Position) (m : MoveInput) :
    ((Part001.makeAMove isLocal playerColor pos m).1 = none →
      (Part001.makeAMove isLocal playerColor pos m).2 = pos) ∧
    ((ChessBoard.makeAMove isLocal orientation pos m).1 = none →
      (ChessBoard.makeAMove isLocal orientation pos m).2 = pos) := by
  constructor
  · unfold Part001.makeAMove
    split
    · exact fun _ => rfl
    · cases hE : engineMove pos m with
      | some pr =>
          obtain ⟨r, g⟩ := pr
          exact fun h => absurd h (by simp)
      | none =>
          cases hG : Position.get pos m.fromSq with
          | none => exact fun _ => rfl
          | some piece =>
              dsimp only
              split
              · cases hR : (Position.removeStr pos m.fromSq).1 with
                | none => exact fun _ => rfl
                | some p2 => exact fun h => absurd h (by simp)
              · exact fun _ => rfl
  · unfold ChessBoard.makeAMove
    split
    · exact fun _ => rfl
    · cases hE : engineMove pos m with
      | some pr =>
          obtain ⟨r, g⟩ := pr
          exact fun h => absurd h (by simp)
      | none => exact fun _ => rfl

theorem C9_witness :
    (Part001.makeAMove true none startPos ⟨"e3", "e4", some PieceKind.queen⟩).2 = startPos ∧
    (ChessBoard.makeAMove true Color.white startPos ⟨"e3", "e4", some PieceKind.queen⟩).2 =
      startPos :=
  ⟨(C9_null_leaves_state true none Color.white startPos
      ⟨"e3", "e4", some PieceKind.queen⟩).1 (by decide),
   (C9_null_leaves_state true none Color.white startPos
      ⟨"e3", "e4", some PieceKind.queen⟩).2 (by decide)⟩

/-- C3: For every move the rules engine accepts as legal (and that the
online turn gate lets through), the controller's resulting held
position is exactly the engine's post-move position — their FEN
strings agree — and the committed descriptor handed to the persistence
callback carries that same before/after FEN pair.  Stated for both
controller revisions. -/
theorem C3_engine_accept_sync (isLocal : Bool) (playerColor : Option Color)
    (orientation : Color) (pos : Position) (m : MoveInput) (r : MoveResult)
    (pos' : Position)
    (hacc : engineMove pos m = some (r, pos'))
    (hg1 : isLocal = true ∨ pos.turn = part001PColor playerColor)
    (hg2 : isLocal = true ∨ pos.turn = orientation) :
    Part001.makeAMove isLocal playerColor pos m = (some r, pos') ∧
    ChessBoard.makeAMove isLocal orientation pos m = (some r, pos') ∧
    writeFen pos' = r.after ∧ writeFen pos = r.before := by
  have hf := engineMove_fens pos m r pos' hacc
  refine ⟨?_, ?_, hf.2.symm, hf.1.symm⟩
  · unfold Part001.makeAMove
    rw [if_neg (by rcases hg1 with h | h <;> simp [h]), hacc]
  · unfold ChessBoard.makeAMove
    rw [if_neg (by rcases hg2 with h | h <;> simp [h]), hacc]

/-- The kingside-pawn double push used to instantiate the controller
theorems at a concrete legal move. -/
def e2e4 : MoveInput := ⟨"e2", "e4", some PieceKind.queen⟩

theorem C3_witness :
    Part001.makeAMove true none startPos e2e4 =
      (some ((engineMove startPos e2e4).get (by decide)).1,
       ((engineMove startPos e2e4).get (by decide)).2) ∧
    writeFen ((engineMove startPos e2e4).get (by decide)).2 =
      ((engineMove startPos e2e4).get (by decide)).1.after := by
  have hacc : engineMove startPos e2e4 =
      some (((engineMove startPos e2e4).get (by decide)).1,
            ((engineMove startPos e2e4).get (by decide)).2) := by
    rw [Prod.mk.eta, Option.some_get]
  have h := C3_engine_accept_sync true none Color.white startPos e2e4 _ _ hacc
    (Or.inl rfl) (Or.inl rfl)
  exact ⟨h.1, h.2.2.1⟩

/-- C1: Whenever the rules engine rejects the move (and the online turn
gate does not reject it first), if the moving piece is a king and the
target is a square at file- and rank-distance at most 1 that is empty
or holds an enemy piece, `makeAMove` of the `part_001` revision commits
the move: the king is relocated from source to target, the side to move
flips, the halfmove clock resets to 0 and the fullmove number
increments exactly when the mover was black.  The hypotheses say
nothing about the target being attacked, so the move commits even onto
an attacked square. -/
theorem C1_king_adjacency_override (isLocal : Bool) (playerColor : Option Color)
    (pos : Position) (f t : Sq) (promo : Option PieceKind) (p : Piece)
    (hgate : isLocal = true ∨ pos.turn = part001PColor playerColor)
    (hrej : engineMove pos ⟨sqName f, sqName t, promo⟩ = none)
    (hpiece : pos.board f = some p)
    (hking : p.kind = PieceKind.king)
    (hadj : adist f.file.val t.file.val ≤ 1 ∧ adist f.rank.val t.rank.val ≤ 1)
    (htgt : emptyOrEnemy pos t p.color = true) :
    (Part001.makeAMove isLocal playerColor pos ⟨sqName f, sqName t, promo⟩).1.isSome = true ∧
    (Part001.makeAMove isLocal playerColor pos ⟨sqName f, sqName t, promo⟩).2.board t =
      some p ∧
    (Part001.makeAMove isLocal playerColor pos ⟨sqName f, sqName t, promo⟩).2.board f =
      none ∧
    (Part001.makeAMove isLocal playerColor pos ⟨sqName f, sqName t, promo⟩).2.turn =
      pos.turn.other ∧
    (Part001.makeAMove isLocal playerColor pos ⟨sqName f, sqName t, promo⟩).2.halfmove = 0 ∧
    (Part001.makeAMove isLocal playerColor pos ⟨sqName f, sqName t, promo⟩).2.fullmove =
      (if p.color = Color.black then pos.fullmove + 1 else pos.fullmove) := by
  have hne : f ≠ t := by
    intro he
    rw [he] at hpiece
    unfold emptyOrEnemy at htgt
    rw [hpiece] at htgt
    simp at htgt
  have hget : Position.get pos (sqName f) = some p := by
    unfold Position.get
    rw [parse_sqName]
    exact hpiece
  have hadjs : adjacentStr (sqName f) (sqName t) = true := by
    rw [adjacentStr_sqName]
    exact decide_eq_true hadj
  have hrem : Position.removeStr pos (sqName f) =
      (some p, { pos with board := pos.board.setSq f none }) := by
    unfold Position.removeStr
    rw [parse_sqName]
    dsimp only
    rw [hpiece]
  have hput : ∀ q : Position, Position.putStr q p (sqName t) =
      { q with board := q.board.setSq t (some p) } := by
    intro q
    unfold Position.putStr
    rw [parse_sqName]
  have hres : Part001.makeAMove isLocal playerColor pos ⟨sqName f, sqName t, promo⟩ =
      (some { color := p.color
              fromSq := sqName f
              toSq := sqName t
              piece := p.kind
              san := "K" ++ sqName t
              promotion := none
              flags := "n"
              before := sqName f
              after := writeFen
                { pos with
                  board := (pos.board.setSq f none).setSq t (some p)
                  turn := pos.turn.other
                  halfmove := 0
                  fullmove := if p.color = Color.black then pos.fullmove + 1
                              else pos.fullmove } },
       { pos with
         board := (pos.board.setSq f none).setSq t (some p)
         turn := pos.turn.other
         halfmove := 0
         fullmove := if p.color = Color.black then pos.fullmove + 1
                     else pos.fullmove }) := by
    unfold Part001.makeAMove
    rw [if_neg (by rcases hgate with h | h <;> simp [h])]
    rw [hrej]
    dsimp only
    rw [hget]
    dsimp only
    rw [if_pos ⟨hking, hadjs⟩]
    rw [hrem]
    dsimp only
    rw [hput]
  rw [hres]
  refine ⟨rfl, ?_, ?_, rfl, rfl, rfl⟩
  · show ((pos.board.setSq f none).setSq t (some p)) t = some p
    unfold Board.setSq
    rw [if_pos rfl]
  · show ((pos.board.setSq f none).setSq t (some p)) f = none
    unfold Board.setSq
    rw [if_neg hne, if_pos rfl]

theorem C1_witness :
    engineMove kingsPos ⟨"e8", "e7", none⟩ = none ∧
    ((Part001.makeAMove true none kingsPos ⟨"e8", "e7", none⟩).1.isSome = true ∧
     (Part001.makeAMove true none kingsPos ⟨"e8", "e7", none⟩).2.board ⟨4, 6⟩ =
       some ⟨Color.black, PieceKind.king⟩ ∧
     (Part001.makeAMove true none kingsPos ⟨"e8", "e7", none⟩).2.board ⟨4, 7⟩ = none ∧
     (Part001.makeAMove true none kingsPos ⟨"e8", "e7", none⟩).2.turn = Color.black ∧
     (Part001.makeAMove true none kingsPos ⟨"e8", "e7", none⟩).2.halfmove = 0 ∧
     (Part001.makeAMove true none kingsPos ⟨"e8", "e7", none⟩).2.fullmove = 2) :=
  ⟨Option.isNone_iff_eq_none.mp (by decide),
   C1_king_adjacency_override true none kingsPos ⟨4, 7⟩ ⟨4, 6⟩ none
     ⟨Color.black, PieceKind.king⟩ (Or.inl rfl) (Option.isNone_iff_eq_none.mp (by decide))
     (by decide) rfl (by decide) (by decide)⟩

/-- The move object both public input paths build: gesture squares with
the promotion piece fixed to queen. -/
def dropInput (s t : String) : MoveInput := ⟨s, t, some PieceKind.queen⟩

/-- Any committed result of `part_001`'s `makeAMove` on a queen-fixed
input carries promotion queen or no promotion (the king-override
result never records a promotion). -/
theorem part001_result_promotion (isLocal : Bool) (playerColor : Option Color)
    (pos : Position) (m : MoveInput) (r : MoveResult)
    (hq : m.promotion = some PieceKind.queen)
    (hr : (Part001.makeAMove isLocal playerColor pos m).1 = some r) :
    r.promotion = none ∨ r.promotion = some PieceKind.queen := by
  unfold Part001.makeAMove at hr
  split at hr
  · cases hr
  · cases hE : engineMove pos m with
    | some pr =>
        obtain ⟨r0, g0⟩ := pr
        rw [hE] at hr
        dsimp only at hr
        cases hr
        exact engineMove_promotion_queen pos m r g0 hq hE
    | none =>
        rw [hE] at hr
        cases hG : Position.get pos m.fromSq with
        | none =>
            rw [hG] at hr
            cases hr
        | some piece =>
            rw [hG] at hr
            dsimp only at hr
            split at hr
            · cases hR : (Position.removeStr pos m.fromSq).1 with
              | none =>
                  rw [hR] at hr
                  cases hr
              | some p2 =>
                  rw [hR] at hr
                  dsimp only at hr
                  cases hr
                  exact Or.inl rfl
            · cases hr

/-- An accepted engine move on a queen-fixed input that moves a pawn
onto the promotion rank leaves a queen of the mover's color on the
target square of the successor position. -/
theorem engine_promo_board (pos : Position) (s t : String) (f t' : Sq) (p : Piece)
    (r0 : MoveResult) (g0 : Position)
    (hep : ∀ e, pos.ep = some e → e.rank.val = 2 ∨ e.rank.val = 5)
    (hps : parseSq s = some f) (hpt : parseSq t = some t')
    (hb : pos.board f = some p) (hk : p.kind = PieceKind.pawn)
    (ht : t'.rank.val = lastRankNat p.color)
    (hE : engineMove pos (dropInput s t) = some (r0, g0)) :
    g0.board t' = some ⟨p.color, PieceKind.queen⟩ := by
  obtain ⟨f2, t2, hf2, ht2, hsq⟩ := engineMove_success pos (dropInput s t) r0 g0 hE
  dsimp only [dropInput] at hf2 ht2 hsq
  rw [hps] at hf2
  rw [hpt] at ht2
  injection hf2 with hf2
  injection ht2 with ht2
  subst hf2
  subst ht2
  obtain ⟨p2, info, hb2, hpsd, hpos', hpromo⟩ :=
    engineMoveSq_success pos f t' (some PieceKind.queen) r0 g0 hsq
  rw [hb] at hb2
  injection hb2 with hb2
  subst hb2
  have hinfo := pseudoMove_pawn_promo pos f t' p info hep hb hk ht hpsd
  rw [hpos', applyPseudo_board_t pos f t' p info hinfo.2, hinfo.1]

/-- On a queen-fixed input that commits, a pawn move onto the promotion
rank leaves a queen of the mover's color on the target square of the
resulting held position. -/
theorem part001_promo_board (isLocal : Bool) (playerColor : Option Color)
    (pos : Position) (s t : String) (f t' : Sq) (p : Piece)
    (hep : ∀ e, pos.ep = some e → e.rank.val = 2 ∨ e.rank.val = 5)
    (hps : parseSq s = some f) (hpt : parseSq t = some t')
    (hb : pos.board f = some p) (hk : p.kind = PieceKind.pawn)
    (ht : t'.rank.val = lastRankNat p.color)
    (hcommit : (Part001.makeAMove isLocal playerColor pos (dropInput s t)).1.isSome = true) :
    (Part001.makeAMove isLocal playerColor pos (dropInput s t)).2.board t' =
      some ⟨p.color, PieceKind.queen⟩ := by
  by_cases hgate : isLocal = false ∧ pos.turn ≠ part001PColor playerColor
  · unfold Part001.makeAMove at hcommit
    rw [if_pos hgate] at hcommit
    simp at hcommit
  · unfold Part001.makeAMove at hcommit ⊢
    rw [if_neg hgate] at hcommit ⊢
    cases hE : engineMove pos (dropInput s t) with
    | some pr =>
        obtain ⟨r0, g0⟩ := pr
        dsimp only
        exact engine_promo_board pos s t f t' p r0 g0 hep hps hpt hb hk ht hE
    | none =>
        rw [hE] at hcommit
        dsimp only [dropInput] at hcommit
        have hget : Position.get pos s = some p := by
          unfold Position.get
          rw [hps]
          exact hb
        rw [hget] at hcommit
        dsimp only at hcommit
        have hnk : ¬(p.kind = PieceKind.king ∧ adjacentStr s t = true) := by
          intro hcond
          rw [hk] at hcond
          exact absurd hcond.1 (by decide)
        rw [if_neg hnk] at hcommit
        exact Bool.noConfusion hcommit

/-- Any committed result of `ChessBoard.tsx`'s `makeAMove` on a
queen-fixed input carries promotion queen or no promotion. -/
theorem chessBoard_result_promotion (isLocal : Bool) (orientation : Color)
    (pos : Position) (m : MoveInput) (r : MoveResult)
    (hq : m.promotion = some PieceKind.queen)
    (hr : (ChessBoard.makeAMove isLocal orientation pos m).1 = some r) :
    r.promotion = none ∨ r.promotion = some PieceKind.queen := by
  unfold ChessBoard.makeAMove at hr
  split at hr
  · cases hr
  · cases hE : engineMove pos m with
    | some pr =>
        obtain ⟨r0, g0⟩ := pr
        rw [hE] at hr
        dsimp only at hr
        cases hr
        exact engineMove_promotion_queen pos m r g0 hq hE
    | none =>
        rw [hE] at hr
        cases hr

/-- On a queen-fixed input that commits through `ChessBoard.tsx`'s
`makeAMove`, a pawn move onto the promotion rank leaves a queen of the
mover's color on the target square of the resulting held position. -/
theorem chessBoard_promo_board (isLocal : Bool) (orientation : Color)
    (pos : Position) (s t : String) (f t' : Sq) (p : Piece)
    (hep : ∀ e, pos.ep = some e → e.rank.val = 2 ∨ e.rank.val = 5)
    (hps : parseSq s = some f) (hpt : parseSq t = some t')
    (hb : pos.board f = some p) (hk : p.kind = PieceKind.pawn)
    (ht : t'.rank.val = lastRankNat p.color)
    (hcommit : (ChessBoard.makeAMove isLocal orientation pos (dropInput s t)).1.isSome =
      true) :
    (ChessBoard.makeAMove isLocal orientation pos (dropInput s t)).2.board t' =
      some ⟨p.color, PieceKind.queen⟩ := by
  by_cases hgate : isLocal = false ∧ pos.turn ≠ orientation
  · unfold ChessBoard.makeAMove at hcommit
    rw [if_pos hgate] at hcommit
    simp at hcommit
  · unfold ChessBoard.makeAMove at hcommit ⊢
    rw [if_neg hgate] at hcommit ⊢
    cases hE : engineMove pos (dropInput s t) with
    | some pr =>
        obtain ⟨r0, g0⟩ := pr
        dsimp only
        exact engine_promo_board pos s t f t' p r0 g0 hep hps hpt hb hk ht hE
    | none =>
        rw [hE] at hcommit
        exact Bool.noConfusion hcommit

/-- C10: Both public input paths (piece drop and the square-click
second phase) fix the promotion piece to queen, in both controller
revisions, for every attempt; consequently a committed move of either
revision never records an underpromotion, and a committed pawn move
onto the promotion rank (in a position whose en-passant field sits on
rank 3 or 6, as chess.js FEN validation guarantees) leaves a queen of
the mover's color on the target square. -/
theorem C10_forced_queen_promotion (isLocal : Bool) (playerColor : Option Color)
    (orientation : Color) (pos : Position) (s t : String) :
    Part001.onDrop isLocal playerColor pos s t =
      ((Part001.makeAMove isLocal playerColor pos (dropInput s t)).1.isSome,
       (Part001.makeAMove isLocal playerColor pos (dropInput s t)).2) ∧
    Part001.onSquareClickAttempt isLocal playerColor pos s t =
      Part001.makeAMove isLocal playerColor pos (dropInput s t) ∧
    ChessBoard.onDrop isLocal orientation pos s t =
      ((ChessBoard.makeAMove isLocal orientation pos (dropInput s t)).1.isSome,
       (ChessBoard.makeAMove isLocal orientation pos (dropInput s t)).2) ∧
    ChessBoard.onSquareClickAttempt isLocal orientation pos s t =
      ChessBoard.makeAMove isLocal orientation pos (dropInput s t) ∧
    (∀ r, (Part001.makeAMove isLocal playerColor pos (dropInput s t)).1 = some r →
      r.promotion ≠ some PieceKind.rook ∧ r.promotion ≠ some PieceKind.bishop ∧
      r.promotion ≠ some PieceKind.knight) ∧
    (∀ r, (ChessBoard.makeAMove isLocal orientation pos (dropInput s t)).1 = some r →
      r.promotion ≠ some PieceKind.rook ∧ r.promotion ≠ some PieceKind.bishop ∧
      r.promotion ≠ some PieceKind.knight) ∧
    (∀ f t' p, parseSq s = some f → parseSq t = some t' → pos.board f = some p →
      p.kind = PieceKind.pawn → t'.rank.val = lastRankNat p.color →
      (∀ e, pos.ep = some e → e.rank.val = 2 ∨ e.rank.val = 5) →
      ((Part001.makeAMove isLocal playerColor pos (dropInput s t)).1.isSome = true →
        (Part001.makeAMove isLocal playerColor pos (dropInput s t)).2.board t' =
          some ⟨p.color, PieceKind.queen⟩) ∧
      ((ChessBoard.makeAMove isLocal orientation pos (dropInput s t)).1.isSome = true →
        (ChessBoard.makeAMove isLocal orientation pos (dropInput s t)).2.board t' =
          some ⟨p.color, PieceKind.queen⟩)) := by
  refine ⟨rfl, rfl, rfl, rfl, ?_, ?_, ?_⟩
  · intro r hr
    rcases part001_result_promotion isLocal playerColor pos (dropInput s t) r rfl hr with
      h | h <;> rw [h] <;> exact ⟨by simp, by simp, by simp⟩
  · intro r hr
    rcases chessBoard_result_promotion isLocal orientation pos (dropInput s t) r rfl hr with
      h | h <;> rw [h] <;> exact ⟨by simp, by simp, by simp⟩
  · intro f t' p hps hpt hb hk ht hep
    exact ⟨part001_promo_board isLocal playerColor pos s t f t' p hep hps hpt hb hk ht,
           chessBoard_promo_board isLocal orientation pos s t f t' p hep hps hpt hb hk ht⟩

theorem C10_witness :
    (Part001.makeAMove true none promoPos (dropInput "a7" "a8")).2.board ⟨0, 7⟩ =
      some ⟨Color.white, PieceKind.queen⟩ ∧
    (ChessBoard.makeAMove true Color.white promoPos (dropInput "a7" "a8")).2.board ⟨0, 7⟩ =
      some ⟨Color.white, PieceKind.queen⟩ :=
  ⟨((C10_forced_queen_promotion true none Color.white promoPos "a7" "a8").2.2.2.2.2.2
      ⟨0, 6⟩ ⟨0, 7⟩ ⟨Color.white, PieceKind.pawn⟩ (by decide) (by decide) (by decide) rfl
      (by decide) (fun e he => absurd he (by simp [promoPos]))).1 (by decide),
   ((C10_forced_queen_promotion true none Color.white promoPos "a7" "a8").2.2.2.2.2.2
      ⟨0, 6⟩ ⟨0, 7⟩ ⟨Color.white, PieceKind.pawn⟩ (by decide) (by decide) (by decide) rfl
      (by decide) (fun e he => absurd he (by simp [promoPos]))).2 (by decide)⟩
